import Mathlib

/-!
Verification development for the camoufox-launchOptions repository.

The TypeScript sources are embedded shallowly:
  * JS runtime values that may appear in the two config records are `JSVal`
    (strings, numbers modelled as rationals, booleans).
  * JS objects used as string-keyed records are insertion-ordered association
    lists (`ConfigMap`).
  * Fallible async code becomes `Except String`, carrying the thrown `Error`
    message.
  * External collaborators (the file system, the HTTP client, the maxmind
    database reader, the country-locale-map table, `process.env`) are packed
    into a `World` record of pure oracle functions; each call of the source to
    a collaborator becomes a lookup in the corresponding oracle.
-/

/-- JS values allowed by `configCheck = z.record(z.string(), z.union([z.string(),
z.number(), z.boolean()]))` in `main.ts`.  JS numbers are modelled as rationals. -/
inductive JSVal where
  | s (v : String)
  | n (v : Rat)
  | b (v : Bool)
deriving DecidableEq, Repr

/-- A JS object used as a string-keyed record, in insertion order. -/
abbrev ConfigMap := List (String × JSVal)

/-- Reading `target[key]` of a JS object: the (unique) binding for `key`, if any. -/
def lookupCfg : ConfigMap → String → Option JSVal
  | [], _ => none
  | (k, v) :: rest, key => if k = key then some v else lookupCfg rest key

/-- The JS `key in target` test. -/
def containsKey (m : ConfigMap) (key : String) : Bool :=
  (lookupCfg m key).isSome

/-- `addToConfig` from `helper.ts`: insert `value` at `key` only when `key` is
absent; otherwise the object is left untouched. -/
def addToConfig (target : ConfigMap) (key : String) (value : JSVal) : ConfigMap :=
  if containsKey target key then target else target ++ [(key, value)]

/-- JS object spread `{...a, ...b}`: keys of `a` in order (with `b`'s value
when `b` also binds the key), then the keys of `b` that are new. On a key
bound in both objects the value of the LATER spread, `b`, wins. -/
def jsSpread (a b : ConfigMap) : ConfigMap :=
  (a.map fun kv => match lookupCfg b kv.1 with
    | some v => (kv.1, v)
    | none => kv) ++
  b.filter fun kv => ¬ containsKey a kv.1

/-! ### String utilities modelling the JS string primitives used by the source -/

/-- JS `String.prototype.split(sep)` for a one-character separator, over the
character list of the string.  `split` of the empty string is `[""]`. -/
def splitOnChar (sep : Char) : List Char → List (List Char)
  | [] => [[]]
  | c :: cs =>
    if c = sep then [] :: splitOnChar sep cs
    else
      match splitOnChar sep cs with
      | p :: rest => (c :: p) :: rest
      | [] => [[c]]

theorem splitOnChar_ne_nil (sep : Char) (l : List Char) : splitOnChar sep l ≠ [] := by
  induction l with
  | nil => simp [splitOnChar]
  | cons c cs ih =>
    simp only [splitOnChar]
    by_cases h : c = sep
    · simp [h]
    · simp only [h, if_false]
      cases hs : splitOnChar sep cs with
      | nil => exact absurd hs ih
      | cons p rest => simp

/-- Every non-separator character of the input lands in one of the pieces. -/
theorem mem_piece_of_mem_splitOnChar (sep c : Char) (hc : c ≠ sep) :
    ∀ l : List Char, c ∈ l → ∃ p ∈ splitOnChar sep l, c ∈ p := by
  intro l
  induction l with
  | nil => intro h; simp at h
  | cons d ds ih =>
    intro hmem
    simp only [splitOnChar]
    by_cases hd : d = sep
    · subst hd
      have hcm : c ∈ ds := by
        cases List.mem_cons.mp hmem with
        | inl h => exact absurd h hc
        | inr h => exact h
      obtain ⟨p, hp, hcp⟩ := ih hcm
      exact ⟨p, by simp [hp], hcp⟩
    · simp only [hd, if_false]
      cases hs : splitOnChar sep ds with
      | nil => exact absurd hs (splitOnChar_ne_nil sep ds)
      | cons p rest =>
        cases List.mem_cons.mp hmem with
        | inl h =>
          subst h
          exact ⟨c :: p, by simp, by simp⟩
        | inr h =>
          obtain ⟨q, hq, hcq⟩ := ih h
          rw [hs] at hq
          cases List.mem_cons.mp hq with
          | inl h2 => exact ⟨d :: p, by simp, by simp [h2 ▸ hcq]⟩
          | inr h2 => exact ⟨q, by simp [h2], hcq⟩

def isWS (c : Char) : Bool := c = ' ' ∨ c = '\t' ∨ c = '\n' ∨ c = '\r'

/-- JS `String.prototype.trim()` (restricted to ASCII whitespace). -/
def jsTrim (s : String) : String :=
  String.mk (((s.data.dropWhile isWS).reverse.dropWhile isWS).reverse)

def isDigitCh (c : Char) : Bool := '0' ≤ c ∧ c ≤ '9'
def isAlphaCh (c : Char) : Bool := ('a' ≤ c ∧ c ≤ 'z') ∨ ('A' ≤ c ∧ c ≤ 'Z')
def isAlnumCh (c : Char) : Bool := isDigitCh c ∨ isAlphaCh c
def isHexCh (c : Char) : Bool := isDigitCh c ∨ ('a' ≤ c ∧ c ≤ 'f') ∨ ('A' ≤ c ∧ c ≤ 'F')

def digitVal (c : Char) : Nat := c.toNat - '0'.toNat

def natOfDigits (l : List Char) : Nat := l.foldl (fun acc c => 10 * acc + digitVal c) 0

/-- One octet of zod's `z.ipv4()` regex: `25[0-5]|2[0-4][0-9]|1[0-9][0-9]|[1-9][0-9]|[0-9]`,
i.e. a decimal numeral 0–255 with no leading zero. -/
def octetValid : List Char → Bool
  | [] => false
  | [c] => isDigitCh c
  | c :: rest => ('1' ≤ c ∧ c ≤ '9') ∧ rest.all isDigitCh ∧ natOfDigits (c :: rest) ≤ 255

/-- Model of zod's `z.ipv4()` string check. -/
def isIPv4 (s : String) : Bool :=
  match splitOnChar '.' s.data with
  | [a, b, c, d] => octetValid a ∧ octetValid b ∧ octetValid c ∧ octetValid d
  | _ => false

/-- Split a character list at the first occurrence of `"::"`, if any. -/
def splitDoubleColon : List Char → Option (List Char × List Char)
  | [] => none
  | [_] => none
  | c :: d :: rest =>
    if c = ':' ∧ d = ':' then some ([], rest)
    else
      match splitDoubleColon (d :: rest) with
      | some (l, r) => some (c :: l, r)
      | none => none

def hexGroupValid (l : List Char) : Bool :=
  1 ≤ l.length ∧ l.length ≤ 4 ∧ l.all isHexCh

/-- The pieces of one side of an IPv6 address (empty side means no groups). -/
def ipv6Groups (l : List Char) : Option (List (List Char)) :=
  if l = [] then some [] else some (splitOnChar ':' l)

def lastIsIPv4 (gs : List (List Char)) : Bool :=
  match gs.getLast? with
  | some g => isIPv4 (String.mk g)
  | none => false

def groupsValid (gs : List (List Char)) : Bool := gs.all hexGroupValid

/-- Model of zod's `z.ipv6()` string check: up to eight 16-bit hex groups,
one optional `::` compression, optional trailing embedded IPv4 quad. -/
def isIPv6 (s : String) : Bool :=
  let l := s.data
  match splitDoubleColon l with
  | some (left, right) =>
    -- no second "::" allowed
    (splitDoubleColon right).isNone &&
    (match ipv6Groups left, ipv6Groups right with
     | some lg, some rg =>
       groupsValid lg &&
       (let v4 := lastIsIPv4 rg
        let rg' := if v4 then rg.dropLast else rg
        groupsValid rg' &&
          decide (lg.length + rg'.length + (if v4 then 2 else 0) ≤ 7))
     | _, _ => false)
  | none =>
    let gs := splitOnChar ':' l
    let v4 := lastIsIPv4 gs
    let gs' := if v4 then gs.dropLast else gs
    groupsValid gs' && decide (gs'.length + (if v4 then 2 else 0) = 8)

/-- One label of zod's `z.regexes.domain` pattern
`[a-zA-Z0-9]([a-zA-Z0-9-]*[a-zA-Z0-9])?`. -/
def labelValid : List Char → Bool
  | [] => false
  | [c] => isAlnumCh c
  | c :: rest =>
    isAlnumCh c && (rest.dropLast.all fun d => isAlnumCh d || d = '-') &&
      (match rest.getLast? with
       | some e => isAlnumCh e
       | none => false)

/-- The final label `[a-zA-Z]{2,}` of the domain pattern. -/
def tldValid (l : List Char) : Bool := 2 ≤ l.length ∧ l.all isAlphaCh

/-- Model of zod's `z.regexes.domain` regex `^(label\.)+tld$` applied to one
raw comma-separated segment. -/
def domainCheck (l : List Char) : Bool :=
  let parts := splitOnChar '.' l
  decide (2 ≤ parts.length) && parts.dropLast.all labelValid &&
    (match parts.getLast? with
     | some last => tldValid last
     | none => false)

/-- The `bypass` refinement from `main.ts`: split the string on `','` and
require every raw segment (no trimming) to pass the domain regex. -/
def bypassCheck (s : String) : Bool :=
  (splitOnChar ',' s.data).all domainCheck

/-! ### Paths: model of `node:path` for POSIX-style inputs without trailing
separators.  `path.parse(s).dir` and `path.resolve(dir, name)` (for a plain
relative `name`) are the only operations the source uses on caller paths;
`..`-normalisation by `path.resolve` is not modelled (it only occurs inside the
fixed macOS default install location, which no claim touches). -/

/-- `path.parse(s).dir`: everything before the final separator (`""` when there
is none, `"/"` when the final separator is the leading root). -/
def dirnameOf (s : String) : String :=
  let rest := s.data.reverse.dropWhile (fun c => ¬ c = '/')
  match rest with
  | [] => ""
  | [_] => "/"
  | _ :: tail => String.mk tail.reverse

/-- `path.resolve(dir, name)` for an absolute `dir` and a separator-free `name`. -/
def joinPath (dir file : String) : String :=
  if dir = "" then file
  else if dir.data.getLast? = some '/' then dir ++ file
  else dir ++ "/" ++ file

/-! ### External collaborators -/

/-- The three platforms accepted by the module-level platform check of
`launchPath.ts` (on any other platform the module throws at import time, so no
function of this development is ever reached). -/
inductive OS where
  | win32
  | darwin
  | linux
deriving DecidableEq, Repr

structure FileStat where
  isFile : Bool
  isDirectory : Bool
deriving DecidableEq, Repr

/-- Outcome of one HTTP GET by the ky client: an outright failure (rejected
promise) or a response with an `ok` flag and a body. -/
inductive NetResult where
  | fail (msg : String)
  | resp (ok : Bool) (body : String)
deriving DecidableEq, Repr

structure CityLocation where
  longitude : Option Rat
  latitude : Option Rat
  accuracy_radius : Option Rat
  time_zone : Option String
deriving DecidableEq, Repr

structure CityRec where
  location : Option CityLocation
deriving DecidableEq, Repr

structure CountryInfo where
  iso_code : Option String
deriving DecidableEq, Repr

structure CountryRec where
  country : Option CountryInfo
deriving DecidableEq, Repr

/-- The external collaborators, as pure oracles.  `fsStat p = none` models
`fs.stat(p)` rejecting with ENOENT; `fs.readFile` on a path whose stat
reported a regular file is modelled as succeeding, and the content of the
database file is folded into the two maxmind lookup oracles. -/
structure World where
  os : OS
  homedir : String
  fsStat : String → Option FileStat
  net : String → NetResult
  lookupCity : String → Option CityRec
  lookupCountry : String → Option CountryRec
  clmLocales : String → Option (List String)
  processEnv : ConfigMap

/-- The message of the error `fs.stat` rejects with on a missing path. -/
def enoentMsg (p : String) : String :=
  "ENOENT: no such file or directory, stat " ++ p

/-! ### launchPath.ts -/

def camoufoxExecutable : OS → String
  | .win32 => "camoufox.exe"
  | .darwin => "camoufox"
  | .linux => "camoufox-bin"

def getDefaultInstallDirectory (w : World) : String :=
  match w.os with
  | .win32 =>
    joinPath (joinPath (joinPath (joinPath (joinPath w.homedir "AppData") "Local")
      "camoufox") "camoufox") "Cache"
  | .darwin =>
    joinPath (joinPath (joinPath (joinPath (joinPath (joinPath w.homedir "Library")
      "Caches") "camoufox") "Camoufox.app") "Contents") "MacOS"
  | .linux => joinPath (joinPath w.homedir ".cache") "camoufox"

/-- `validatedExecutablePath`: `some p` is the validated path, `none` the
literal `false`; a rejection of `fs.stat` propagates. -/
def validatedExecutablePath (w : World) (directoryDir : String) (executable : String) :
    Except String (Option String) :=
  let parsedExecutable := joinPath directoryDir executable
  match w.fsStat parsedExecutable with
  | none => .error (enoentMsg parsedExecutable)
  | some st => if st.isFile then .ok (some parsedExecutable) else .ok none

def checkIfCamoufoxIsInstalled (w : World) (directory : String) :
    Except String (Option String) :=
  let dir := dirnameOf directory
  match w.fsStat dir with
  | none => .error (enoentMsg dir)
  | some st =>
    if st.isDirectory then validatedExecutablePath w dir (camoufoxExecutable w.os)
    else .ok none

def launchPath (w : World) (customInstall : Option String) : Except String String :=
  let target :=
    match customInstall with
    | some s => if s = "" then getDefaultInstallDirectory w else s
    | none => getDefaultInstallDirectory w
  match checkIfCamoufoxIsInstalled w target with
  | .error e => .error e
  | .ok (some p) => .ok p
  | .ok none => .error "Camoufox is Not Installed"

/-! ### proxy.ts -/

structure ProxyCfg where
  server : String
  username : Option String
  password : Option String
  bypass : Option String
deriving DecidableEq, Repr

/-- `new URL(s).protocol`: the scheme up to and including the first `':'`
(`none` when the URL constructor throws for want of a scheme). -/
def urlProtocol (s : String) : Option String :=
  let scheme := s.data.takeWhile (fun c => ¬ c = ':')
  if scheme.length = s.data.length ∨ scheme = [] then none
  else some (String.mk (scheme ++ [':']))

/-- `getKyInstance`: construct the (elided) ky client, failing on an
unsupported proxy scheme before any request is issued. -/
def getKyInstance (proxy : Option ProxyCfg) : Except String Unit :=
  match proxy with
  | none => .ok ()
  | some p =>
    match urlProtocol p.server with
    | none => .error "Invalid URL"
    | some protocol =>
      if protocol = "http:" ∨ protocol = "https:" then .ok ()
      else if protocol = "socks5:" then .ok ()
      else .error "Unsupported Proxy Protocol, Only 'http:', 'https:' and 'socks5:' protocols are supported"

def whatsMyIPList : List String :=
  ["https://api.ipify.org",
   "https://checkip.amazonaws.com",
   "https://icanhazip.com",
   "https://ifconfig.co/ip",
   "https://ipecho.net/plain",
   "https://ipinfo.io/ip"]

/-- `ipOutputObjectType`: each field a validated literal or the literal
`false`, modelled as `none`. -/
structure ResolvedIP where
  ipv4 : Option String
  ipv6 : Option String
deriving DecidableEq, Repr

/-- The `geoip` value handed to `getPublicIP`: the literal `true`, or an
object with the two optional address fields. -/
inductive GeoIPInput where
  | auto
  | spec (ipv4 : Option String) (ipv6 : Option String)
deriving DecidableEq, Repr

def optValid (check : String → Bool) : Option String → Bool
  | none => true
  | some s => check s

/-- `ipInputObject.safeParse`: succeeds exactly on objects whose present
fields are valid literals of their family. -/
def parseIpInput : GeoIPInput → Option (Option String × Option String)
  | .auto => none
  | .spec o4 o6 =>
    if optValid isIPv4 o4 && optValid isIPv6 o6 then some (o4, o6) else none

/-- JS truthiness of `string | undefined` (`x ? x : false`). -/
def jsTruthyStr : Option String → Option String
  | some s => if s = "" then none else some s
  | none => none

/-- `Set.prototype.add`: insertion-ordered, deduplicating. -/
def setAdd (s : List String) (x : String) : List String :=
  if x ∈ s then s else s ++ [x]

/-- The detection loop of `getPublicIP`.  There is no try/catch in the source,
so an outright request failure propagates and aborts the loop; a non-OK
response or a body that is neither family is skipped. -/
def detectLoop (net : String → NetResult) :
    List String → List String → List String → Except String (List String × List String)
  | [], v4, v6 => .ok (v4, v6)
  | svc :: rest, v4, v6 =>
    match net svc with
    | .fail e => .error e
    | .resp ok body =>
      if ok then
        let pubIP := jsTrim body
        let v4' := if isIPv4 pubIP then setAdd v4 pubIP else v4
        let v6' := if isIPv6 pubIP then setAdd v6 pubIP else v6
        detectLoop net rest v4' v6'
      else detectLoop net rest v4 v6

/-- `set.values().next().value` re-validated by `z.ipv4()/z.ipv6().safeParse`. -/
def headValidated (check : String → Bool) (l : List String) : Option String :=
  match l.head? with
  | some s => if check s then some s else none
  | none => none

def getPublicIP (input : GeoIPInput) (proxy : Option ProxyCfg)
    (net : String → NetResult) : Except String ResolvedIP :=
  match parseIpInput input with
  | some (o4, o6) => .ok ⟨jsTruthyStr o4, jsTruthyStr o6⟩
  | none =>
    match getKyInstance proxy with
    | .error e => .error e
    | .ok _ =>
      match detectLoop net whatsMyIPList [] [] with
      | .error e => .error e
      | .ok (v4s, v6s) =>
        if v4s = [] ∧ v6s = [] then .error "Failed to automatically get public IP"
        else .ok ⟨headValidated isIPv4 v4s, headValidated isIPv6 v6s⟩

/-! ### geoData.ts -/

def pickPubIP (ipObject : ResolvedIP) : Except String String :=
  match ipObject.ipv4, ipObject.ipv6 with
  | some v4, none => .ok v4
  | none, some v6 => .ok v6
  | some v4, some _ => .ok v4
  | none, none => .error "Geolocation and Locale error, A valid IP address is requied"

def mmdbName : String := "GeoLite2-City.mmdb"

/-- The database path consulted by `getGeolocationAndLocale`:
`path.resolve(path.parse(directory).dir, "GeoLite2-City.mmdb")`. -/
def mmdbPath (directory : String) : String := joinPath (dirnameOf directory) mmdbName

/-- `Array.prototype.join(", ")`. -/
def joinLocales : List String → String
  | [] => ""
  | [x] => x
  | x :: rest => x ++ ", " ++ joinLocales rest

structure GeoLocale where
  longitude : Rat
  latitude : Rat
  accuracy : Rat
  timezone : Option String
  locales : String
deriving DecidableEq, Repr

/-- Stands for the message `z.prettifyError` would produce for a failed zod
parse; its contents are library formatting and are not modelled further. -/
def zodParseErrMsg : String := "Zod validation error"

def getGeolocationAndLocale (w : World) (ipObject : ResolvedIP) (directory : String) :
    Except String GeoLocale :=
  match pickPubIP ipObject with
  | .error e => .error e
  | .ok pubIP =>
    let mmdbFile := mmdbPath directory
    match w.fsStat mmdbFile with
    | none => .error (enoentMsg mmdbFile)
    | some st =>
      if st.isFile then
        match w.lookupCity pubIP, w.lookupCountry pubIP with
        | some maxmindCity, some maxmindCountry =>
          match maxmindCity.location, maxmindCountry.country with
          | some location, some country =>
            match (match country.iso_code with
                   | some code => w.clmLocales code
                   | none => none) with
            | some locs =>
              match location.longitude, location.latitude, location.accuracy_radius with
              | some lon, some lat, some acc =>
                .ok ⟨lon, lat, acc, location.time_zone, joinLocales locs⟩
              | _, _, _ => .error zodParseErrMsg
            | none => .error "Geolocation and Locale error, Unknown iso country code"
          | _, _ =>
            .error ("Geolocation and Locale error, No geoData found for current IP: " ++ pubIP)
        | _, _ =>
          .error ("Geolocation and Locale error, No geoData found for current IP: " ++ pubIP)
      else .error "Geolocation and Locale error, '.mmdb' file not found"

/-! ### main.ts: schema and orchestrator -/

/-- The `humanize` input: `boolean | number`. -/
inductive HumanizeRaw where
  | hb (v : Bool)
  | hn (v : Rat)
deriving DecidableEq, Repr

/-- The `geoip` input: `boolean | {ipv4?, ipv6?}`. -/
inductive GeoIPRaw where
  | gb (v : Bool)
  | ips (ipv4 : Option String) (ipv6 : Option String)
deriving DecidableEq, Repr

/-- The raw argument of `camoufoxLaunchOptions`, with each optional field of
the TypeScript input type as an `Option`. -/
structure RawOptions where
  headless : Option Bool
  proxy : Option ProxyCfg
  geoip : Option GeoIPRaw
  humanize : Option HumanizeRaw
  enableCache : Option Bool
  executablePath : Option String

/-- The inner `z.discriminatedUnion("ipv4", ...)` of the schema: one of the two
shapes "ipv4 required + ipv6 optional" / "ipv4 optional + ipv6 required", all
present fields valid literals. -/
def geoipObjectValid (o4 o6 : Option String) : Bool :=
  (optValid isIPv4 o4 && o4.isSome && optValid isIPv6 o6) ||
  (optValid isIPv6 o6 && o6.isSome && optValid isIPv4 o4)

def geoipValid : GeoIPRaw → Bool
  | .gb _ => true
  | .ips o4 o6 => geoipObjectValid o4 o6

def humanizeValid : HumanizeRaw → Bool
  | .hb _ => true
  | .hn q => 0 < q

/-- `z.url({protocol: /(^https?$|^socks5$)/, ...})` on the proxy server, with
the WHATWG URL shape reduced to "supported scheme followed by `://` and a
non-empty remainder". -/
def serverUrlValid (s : String) : Bool :=
  match urlProtocol s with
  | some protocol =>
    (protocol = "http:" || protocol = "https:" || protocol = "socks5:") &&
      s.startsWith (protocol ++ "//") && decide (protocol.length + 2 < s.length)
  | none => false

def proxyValid (p : ProxyCfg) : Bool :=
  serverUrlValid p.server &&
    (match p.bypass with
     | some b => bypassCheck b
     | none => true)

def optValidBy {α : Type} (check : α → Bool) : Option α → Bool
  | none => true
  | some x => check x

/-- `zodCamoufoxLaunchOptions.safeParse(...).success`: the discriminated union
on the presence of `proxy` — the variant without a proxy has `geoip` optional,
the variant with a proxy requires both a valid `proxy` and a present `geoip`. -/
def zodValidate (raw : RawOptions) : Bool :=
  match raw.proxy with
  | none => optValidBy geoipValid raw.geoip && optValidBy humanizeValid raw.humanize
  | some p =>
    proxyValid p &&
      (match raw.geoip with
       | some g => geoipValid g
       | none => false) &&
      optValidBy humanizeValid raw.humanize

/-- JS truthiness of the validated `zvui.geoip` (`undefined` and `false` are
falsy; `true` and any object are truthy). -/
def geoipTruthy : Option GeoIPRaw → Bool
  | some (.gb b) => b
  | some (.ips _ _) => true
  | none => false

def toPublicIPInput : Option GeoIPRaw → GeoIPInput
  | some (.ips o4 o6) => .spec o4 o6
  | _ => .auto

/-- JS truthiness of the validated `zvui.humanize`. -/
def humanizeTruthy : Option HumanizeRaw → Bool
  | some (.hb b) => b
  | some (.hn q) => ¬ q = 0
  | none => false

/-- JS truthiness of `zvui.enableCache`. -/
def enableCacheTruthy : Option Bool → Bool
  | some b => b
  | none => false

/-- The `if (zvui.geoip) { ... }` block: resolve the public IP, write the
per-family webrtc keys, resolve the geo-locale data and write its keys. -/
def geoipStep (w : World) (geoip : Option GeoIPRaw) (proxy : Option ProxyCfg)
    (exePath : String) (mc : ConfigMap) : Except String ConfigMap :=
  match getPublicIP (toPublicIPInput geoip) proxy w.net with
  | .error e => .error e
  | .ok publicIP =>
    let mc := match jsTruthyStr publicIP.ipv4 with
      | some ip4 => addToConfig mc "webrtc:ipv4" (.s ip4)
      | none => mc
    let mc := match jsTruthyStr publicIP.ipv6 with
      | some ip6 => addToConfig mc "webrtc:ipv6" (.s ip6)
      | none => mc
    match getGeolocationAndLocale w publicIP exePath with
    | .error e => .error e
    | .ok geoData =>
      let mc := addToConfig mc "geolocation:longitude" (.n geoData.longitude)
      let mc := addToConfig mc "geolocation:latitude" (.n geoData.latitude)
      let mc := addToConfig mc "geolocation:accuracy" (.n geoData.accuracy)
      let mc := addToConfig mc "locale:all" (.s geoData.locales)
      let mc := match jsTruthyStr geoData.timezone with
        | some tz => addToConfig mc "timezone" (.s tz)
        | none => mc
      .ok mc

/-- The `if (zvui.humanize) { ... }` block. -/
def humanizeStep (h : Option HumanizeRaw) (mc : ConfigMap) : ConfigMap :=
  if humanizeTruthy h then
    let mc := addToConfig mc "humanize" (.b true)
    match h with
    | some (.hn q) => addToConfig mc "humanize:maxTime" (.n q)
    | _ => mc
  else mc

/-- The `if (zvui.enableCache) { ... }` block: writes the five fixed
cache-tuning keys into the preference map and touches nothing else. -/
def cacheStep (enabled : Bool) (mc prefs : ConfigMap) : ConfigMap × ConfigMap :=
  if enabled then
    (mc,
     addToConfig (addToConfig (addToConfig (addToConfig (addToConfig prefs
       "browser.sessionhistory.max_entries" (.n 10))
       "browser.sessionhistory.max_total_viewers" (.n (-1)))
       "browser.cache.memory.enable" (.b true))
       "browser.cache.disk_cache_ssl" (.b true))
       "browser.cache.disk.smart_size.enabled" (.b true))
  else (mc, prefs)

def fiveCachePrefs : ConfigMap :=
  [("browser.sessionhistory.max_entries", .n 10),
   ("browser.sessionhistory.max_total_viewers", .n (-1)),
   ("browser.cache.memory.enable", .b true),
   ("browser.cache.disk_cache_ssl", .b true),
   ("browser.cache.disk.smart_size.enabled", .b true)]

structure LaunchDescriptor where
  executablePath : String
  env : ConfigMap
  proxy : Option ProxyCfg
  firefoxUserPrefs : ConfigMap
  headless : Bool
deriving DecidableEq, Repr

/-- The engine-setting map (`mainConfig`) as accumulated by the geoip and
humanize blocks, in source order, starting from the empty object. -/
def buildMainConfig (w : World) (raw : RawOptions) (exePath : String) :
    Except String ConfigMap :=
  match (if geoipTruthy raw.geoip
         then geoipStep w raw.geoip raw.proxy exePath []
         else .ok []) with
  | .error e => .error e
  | .ok mc => .ok (humanizeStep raw.humanize mc)

/-- The tail of the orchestrator after both maps are accumulated: the cache
block, the (always-succeeding) record re-validation of both maps and of
`process.env`, the object-spread merge, and the final descriptor. -/
def mkDescriptor (w : World) (raw : RawOptions) (exePath : String) (mc : ConfigMap) :
    LaunchDescriptor :=
  let maps := cacheStep (enableCacheTruthy raw.enableCache) mc []
  { executablePath := exePath
    env := jsSpread maps.1 w.processEnv
    proxy := raw.proxy
    firefoxUserPrefs := maps.2
    headless := match raw.headless with
      | some b => b
      | none => true }

/-- `camoufoxLaunchOptions` from `main.ts`. -/
def camoufoxLaunchOptions (w : World) (raw : RawOptions) :
    Except String LaunchDescriptor :=
  if zodValidate raw then
    match launchPath w raw.executablePath with
    | .error e => .error e
    | .ok exePath =>
      match buildMainConfig w raw exePath with
      | .error e => .error e
      | .ok mc => .ok (mkDescriptor w raw exePath mc)
  else .error zodParseErrMsg

/-! ### Lemmas about the config accumulator and the object spread -/

theorem lookupCfg_append_self (m : ConfigMap) (k : String) (v : JSVal)
    (h : lookupCfg m k = none) : lookupCfg (m ++ [(k, v)]) k = some v := by
  induction m with
  | nil => simp [lookupCfg]
  | cons kv rest ih =>
    obtain ⟨k0, v0⟩ := kv
    simp only [lookupCfg] at h ⊢
    by_cases hk : k0 = k
    · simp [hk] at h
    · simp only [hk, if_false] at h ⊢
      exact ih h

theorem containsKey_append_self (m : ConfigMap) (k : String) (v : JSVal)
    (h : lookupCfg m k = none) : containsKey (m ++ [(k, v)]) k = true := by
  simp [containsKey, lookupCfg_append_self m k v h]

theorem addToConfig_absent (m : ConfigMap) (k : String) (v : JSVal)
    (h : lookupCfg m k = none) : addToConfig m k v = m ++ [(k, v)] := by
  simp [addToConfig, containsKey, h]

theorem addToConfig_present (m : ConfigMap) (k : String) (v : JSVal)
    (h : containsKey m k = true) : addToConfig m k v = m := by
  simp [addToConfig, h]

theorem cacheStep_fst (b : Bool) (mc prefs : ConfigMap) :
    (cacheStep b mc prefs).1 = mc := by
  cases b <;> simp [cacheStep]

/-- Looking a key up in `a.map f ++ tail` finds `f`'s image of `a`'s first
binding of that key, whenever `a` binds the key and `f` preserves keys. -/
theorem lookupCfg_map_override (b : ConfigMap) (k : String) (v : JSVal)
    (hb : lookupCfg b k = some v) :
    ∀ (a : ConfigMap) (tail : ConfigMap), containsKey a k = true →
      lookupCfg ((a.map fun kv => match lookupCfg b kv.1 with
        | some w => (kv.1, w)
        | none => kv) ++ tail) k = some v := by
  intro a
  induction a with
  | nil => intro tail h; simp [containsKey, lookupCfg] at h
  | cons kv rest ih =>
    intro tail h
    obtain ⟨k0, v0⟩ := kv
    by_cases hk : k0 = k
    · subst hk
      simp [List.map_cons, List.cons_append, hb, lookupCfg]
    · have h' : containsKey rest k = true := by
        simpa [containsKey, lookupCfg, hk] using h
      have := ih tail h'
      cases hlb : lookupCfg b k0 with
      | none => simpa [List.map_cons, lookupCfg, hlb, hk] using this
      | some w => simpa [List.map_cons, lookupCfg, hlb, hk] using this

/-- On a key bound by both objects the spread `{...a, ...b}` yields `b`'s
value. -/
theorem lookupCfg_jsSpread_right (a b : ConfigMap) (k : String)
    (ha : containsKey a k = true) (hb : containsKey b k = true) :
    lookupCfg (jsSpread a b) k = lookupCfg b k := by
  obtain ⟨v, hv⟩ : ∃ v, lookupCfg b k = some v := by
    cases h : lookupCfg b k with
    | none => simp [containsKey, h] at hb
    | some v => exact ⟨v, rfl⟩
  rw [hv]
  exact lookupCfg_map_override b k v hv a _ ha

/-- C4, as stated, is false: `addToConfig` never overwrites, so on a map that
already binds `"k"` to `0`, two subsequent sets leave `0`, not the first new
value `1`. -/
theorem addToConfig_overwrite_counterexample :
    lookupCfg (addToConfig (addToConfig [("k", JSVal.n 0)] "k" (JSVal.n 1)) "k"
      (JSVal.n 2)) "k" = some (JSVal.n 0) ∧
    ¬ (some (JSVal.n 0) = some (JSVal.n 1)) := by
  constructor
  · rfl
  · decide

/-- C4 (amended): a `set` at an already-bound key is the identity on the map,
and when `k` is initially absent, `set(m,k,v1); set(m,k,v2)` leaves `m[k] = v1` —
no later write ever overwrites an earlier one. -/
theorem addToConfig_write_once :
    (∀ (m : ConfigMap) (k : String) (v : JSVal),
      containsKey m k = true → addToConfig m k v = m) ∧
    (∀ (m : ConfigMap) (k : String) (v1 v2 : JSVal),
      lookupCfg m k = none →
        lookupCfg (addToConfig (addToConfig m k v1) k v2) k = some v1) := by
  constructor
  · exact addToConfig_present
  · intro m k v1 v2 h
    rw [addToConfig_absent m k v1 h,
      addToConfig_present _ k v2 (containsKey_append_self m k v1 h)]
    exact lookupCfg_append_self m k v1 h

/-- Witness for `addToConfig_write_once` at concrete inputs. -/
theorem addToConfig_write_once_witness :
    addToConfig [("k", JSVal.n 7)] "k" (JSVal.n 8) = [("k", JSVal.n 7)] ∧
    lookupCfg (addToConfig (addToConfig [] "k" (JSVal.n 1)) "k" (JSVal.n 2)) "k"
      = some (JSVal.n 1) :=
  ⟨addToConfig_write_once.1 [("k", JSVal.n 7)] "k" (JSVal.n 8) (by decide),
   addToConfig_write_once.2 [] "k" (JSVal.n 1) (JSVal.n 2) (by decide)⟩

/-! ### Lemmas about the public-IP detection loop -/

/-- A detection-service request that fails outright (rejected promise). -/
def reqFails (net : String → NetResult) (svc : String) : Bool :=
  match net svc with
  | .fail _ => true
  | .resp _ _ => false

/-- A detection service contributes when its response is OK and its trimmed
body is a valid IPv4 or IPv6 literal. -/
def contributes (net : String → NetResult) (svc : String) : Bool :=
  match net svc with
  | .resp true body => isIPv4 (jsTrim body) || isIPv6 (jsTrim body)
  | _ => false

theorem setAdd_ne_nil (l : List String) (x : String) : setAdd l x ≠ [] := by
  unfold setAdd
  split
  · intro h
    subst h
    simp_all
  · simp

theorem mem_setAdd (l : List String) (x y : String) (h : y ∈ setAdd l x) :
    y ∈ l ∨ y = x := by
  unfold setAdd at h
  split at h
  · exact Or.inl h
  · rcases List.mem_append.mp h with h1 | h1
    · exact Or.inl h1
    · simp at h1
      exact Or.inr h1

/-- When no request fails outright, the loop runs to completion, and the two
sets end up empty exactly when they started empty and no service contributed:
non-OK responses and malformed bodies are skipped without failing. -/
theorem detectLoop_no_fail (net : String → NetResult) :
    ∀ (l : List String) (v4 v6 : List String),
      (∀ svc ∈ l, reqFails net svc = false) →
      ∃ v4' v6', detectLoop net l v4 v6 = .ok (v4', v6') ∧
        ((v4' = [] ∧ v6' = []) ↔
          ((v4 = [] ∧ v6 = []) ∧ ∀ svc ∈ l, contributes net svc = false)) := by
  intro l
  induction l with
  | nil =>
    intro v4 v6 _
    exact ⟨v4, v6, rfl, by simp⟩
  | cons svc rest ih =>
    intro v4 v6 hnf
    have hsvc : reqFails net svc = false := hnf svc (by simp)
    have hrest : ∀ s ∈ rest, reqFails net s = false :=
      fun s hs => hnf s (by simp [hs])
    cases hnet : net svc with
    | fail e => simp [reqFails, hnet] at hsvc
    | resp ok body =>
      cases ok with
      | false =>
        obtain ⟨v4', v6', heq, hiff⟩ := ih v4 v6 hrest
        refine ⟨v4', v6', ?_, ?_⟩
        · simp [detectLoop, hnet, heq]
        · rw [hiff]
          constructor
          · rintro ⟨⟨h1, h2⟩, h3⟩
            refine ⟨⟨h1, h2⟩, ?_⟩
            intro s hs
            rcases List.mem_cons.mp hs with h | h
            · subst h; simp [contributes, hnet]
            · exact h3 s h
          · rintro ⟨⟨h1, h2⟩, h3⟩
            exact ⟨⟨h1, h2⟩, fun s hs => h3 s (by simp [hs])⟩
      | true =>
        set ip := jsTrim body with hip
        set v4n := if isIPv4 ip then setAdd v4 ip else v4 with hv4n
        set v6n := if isIPv6 ip then setAdd v6 ip else v6 with hv6n
        obtain ⟨v4', v6', heq, hiff⟩ := ih v4n v6n hrest
        refine ⟨v4', v6', ?_, ?_⟩
        · simp only [detectLoop, hnet, if_pos rfl]
          exact heq
        · rw [hiff]
          have hstep : (v4n = [] ∧ v6n = []) ↔
              ((v4 = [] ∧ v6 = []) ∧ contributes net svc = false) := by
            rw [hv4n, hv6n]
            by_cases h4 : isIPv4 ip
            · simp [h4, contributes, hnet, ← hip, setAdd_ne_nil]
            · by_cases h6 : isIPv6 ip
              · simp [h4, h6, contributes, hnet, ← hip, setAdd_ne_nil]
              · simp [h4, h6, contributes, hnet, ← hip]
          rw [hstep]
          constructor
          · rintro ⟨⟨⟨h1, h2⟩, hc⟩, h3⟩
            refine ⟨⟨h1, h2⟩, ?_⟩
            intro s hs
            rcases List.mem_cons.mp hs with h | h
            · subst h; exact hc
            · exact h3 s h
          · rintro ⟨⟨h1, h2⟩, h3⟩
            exact ⟨⟨⟨h1, h2⟩, h3 svc (by simp)⟩, fun s hs => h3 s (by simp [hs])⟩

/-- Every member of the final sets passed the corresponding family check when
it was inserted. -/
theorem detectLoop_elems_valid (net : String → NetResult) :
    ∀ (l : List String) (v4 v6 v4' v6' : List String),
      detectLoop net l v4 v6 = .ok (v4', v6') →
      (∀ x ∈ v4, isIPv4 x = true) → (∀ x ∈ v6, isIPv6 x = true) →
      (∀ x ∈ v4', isIPv4 x = true) ∧ (∀ x ∈ v6', isIPv6 x = true) := by
  intro l
  induction l with
  | nil =>
    intro v4 v6 v4' v6' heq h4 h6
    simp only [detectLoop, Except.ok.injEq, Prod.mk.injEq] at heq
    obtain ⟨h1, h2⟩ := heq
    exact ⟨h1 ▸ h4, h2 ▸ h6⟩
  | cons svc rest ih =>
    intro v4 v6 v4' v6' heq h4 h6
    cases hnet : net svc with
    | fail e => simp [detectLoop, hnet] at heq
    | resp ok body =>
      cases ok with
      | false =>
        simp only [detectLoop, hnet] at heq
        exact ih v4 v6 v4' v6' heq h4 h6
      | true =>
        simp only [detectLoop, hnet, if_pos rfl] at heq
        refine ih _ _ v4' v6' heq ?_ ?_
        · intro x hx
          by_cases hc : isIPv4 (jsTrim body)
          · rw [if_pos hc] at hx
            rcases mem_setAdd _ _ _ hx with h | h
            · exact h4 x h
            · subst h; exact hc
          · rw [if_neg hc] at hx
            exact h4 x hx
        · intro x hx
          by_cases hc : isIPv6 (jsTrim body)
          · rw [if_pos hc] at hx
            rcases mem_setAdd _ _ _ hx with h | h
            · exact h6 x h
            · subst h; exact hc
          · rw [if_neg hc] at hx
            exact h6 x hx

/-! ### C2: behaviour of the detection loop -/

/-- A network where the first detection service fails outright and every other
service returns a valid IPv4 body. -/
def netFirstFails : String → NetResult := fun svc =>
  if svc = "https://api.ipify.org" then .fail "network failure"
  else .resp true "1.2.3.4"

/-- C2, as stated, is false: a request that fails outright is NOT skipped — the
loop aborts with that failure even though every remaining service would
contribute a valid IPv4 (skipping, as the claim describes, would succeed, as
the last conjunct shows for the remaining services). -/
theorem detect_fail_aborts_counterexample :
    getPublicIP .auto none netFirstFails = .error "network failure" ∧
    ¬ getPublicIP .auto none netFirstFails = .ok ⟨some "1.2.3.4", none⟩ ∧
    detectLoop netFirstFails (whatsMyIPList.drop 1) [] [] = .ok (["1.2.3.4"], []) :=
  ⟨rfl, fun h => Except.noConfusion h, rfl⟩

/-- C2 (amended): when no individual request fails outright, non-OK responses
and bodies that are neither family are skipped without failing the resolution,
and the detection error is raised exactly when the list is exhausted with both
sets empty; a request that fails outright, however, aborts the whole
resolution with that failure. -/
theorem detect_skips_nonok_and_malformed (proxy : Option ProxyCfg)
    (net : String → NetResult)
    (hky : getKyInstance proxy = .ok ())
    (hnf : ∀ svc ∈ whatsMyIPList, reqFails net svc = false) :
    ((∀ svc ∈ whatsMyIPList, contributes net svc = false) →
      getPublicIP .auto proxy net = .error "Failed to automatically get public IP") ∧
    ((∃ svc ∈ whatsMyIPList, contributes net svc = true) →
      ∃ out, getPublicIP .auto proxy net = .ok out) := by
  obtain ⟨v4', v6', heq, hiff⟩ := detectLoop_no_fail net whatsMyIPList [] [] hnf
  constructor
  · intro hnone
    have hempty : v4' = [] ∧ v6' = [] := hiff.mpr ⟨⟨rfl, rfl⟩, hnone⟩
    simp only [getPublicIP, parseIpInput, hky, heq, hempty.1, hempty.2]
    simp
  · rintro ⟨svc, hsvc, hc⟩
    have hne : ¬ (v4' = [] ∧ v6' = []) := by
      intro hboth
      have := (hiff.mp hboth).2 svc hsvc
      rw [hc] at this
      exact absurd this (by simp)
    refine ⟨⟨headValidated isIPv4 v4', headValidated isIPv6 v6'⟩, ?_⟩
    simp only [getPublicIP, parseIpInput, hky, heq]
    simp [hne]

/-- A network where every service responds OK with a valid IPv4 body. -/
def netAllOk : String → NetResult := fun _ => .resp true "9.9.9.9"

/-- A network where every service responds OK with garbage. -/
def netAllGarbage : String → NetResult := fun _ => .resp true "not an ip"

/-- Witness for `detect_skips_nonok_and_malformed` at two concrete networks. -/
theorem detect_skips_nonok_and_malformed_witness :
    (∃ out, getPublicIP .auto none netAllOk = .ok out) ∧
    getPublicIP .auto none netAllGarbage = .error "Failed to automatically get public IP" :=
  ⟨(detect_skips_nonok_and_malformed none netAllOk rfl (by decide)).2
      ⟨"https://api.ipify.org", by decide, by decide⟩,
   (detect_skips_nonok_and_malformed none netAllGarbage rfl (by decide)).1 (by decide)⟩

/-! ### C6: the resolved-IP invariant -/

theorem isIPv4_ne_empty (s : String) (h : isIPv4 s = true) : ¬ s = "" := by
  intro he
  subst he
  exact absurd h (by decide)

theorem isIPv6_ne_empty (s : String) (h : isIPv6 s = true) : ¬ s = "" := by
  intro he
  subst he
  exact absurd h (by decide)

/-- C6: every `ResolvedIP` that `getPublicIP` returns — from an explicit spec
containing at least one address family (as the input schema requires), or from
successful auto-detection — has at least one family set; never are both fields
the literal `false`. -/
theorem resolvedIP_not_both_false (input : GeoIPInput) (proxy : Option ProxyCfg)
    (net : String → NetResult) (out : ResolvedIP)
    (hin : input = .auto ∨
      ∃ o4 o6, input = .spec o4 o6 ∧ (o4.isSome = true ∨ o6.isSome = true))
    (hok : getPublicIP input proxy net = .ok out) :
    out.ipv4.isSome = true ∨ out.ipv6.isSome = true := by
  have auto_case : ∀ (inp : GeoIPInput), parseIpInput inp = none →
      getPublicIP inp proxy net = .ok out →
      out.ipv4.isSome = true ∨ out.ipv6.isSome = true := by
    intro inp hparse h
    cases hky : getKyInstance proxy with
    | error e => simp [getPublicIP, hparse, hky] at h
    | ok u =>
      cases u
      cases hdl : detectLoop net whatsMyIPList [] [] with
      | error e => simp [getPublicIP, hparse, hky, hdl] at h
      | ok pair =>
        obtain ⟨v4s, v6s⟩ := pair
        simp only [getPublicIP, hparse, hky, hdl] at h
        by_cases hemp : v4s = [] ∧ v6s = []
        · rw [if_pos hemp] at h
          exact absurd h (by simp)
        · rw [if_neg hemp] at h
          have hvalid := detectLoop_elems_valid net whatsMyIPList [] [] v4s v6s hdl
            (by simp) (by simp)
          have hout : out = ⟨headValidated isIPv4 v4s, headValidated isIPv6 v6s⟩ := by
            cases h; rfl
          subst hout
          cases h4 : v4s with
          | cons a rest =>
            have ha : isIPv4 a = true := hvalid.1 a (by simp [h4])
            left
            simp [headValidated, h4, ha]
          | nil =>
            cases h6 : v6s with
            | nil => exact absurd ⟨h4, h6⟩ hemp
            | cons b rest =>
              have hb : isIPv6 b = true := hvalid.2 b (by simp [h6])
              right
              simp [headValidated, h6, hb]
  rcases hin with hauto | ⟨o4, o6, hspec, hfam⟩
  · exact auto_case input (by rw [hauto]; rfl) hok
  · subst hspec
    cases hparse : parseIpInput (.spec o4 o6) with
    | none => exact auto_case _ hparse hok
    | some pair =>
      simp only [parseIpInput] at hparse
      by_cases hv : (optValid isIPv4 o4 && optValid isIPv6 o6) = true
      · rw [if_pos hv] at hparse
        have h12 : optValid isIPv4 o4 = true ∧ optValid isIPv6 o6 = true := by
          simpa using hv
        have hpair : pair = (o4, o6) := by
          cases hparse; rfl
        subst hpair
        have hparse2 : parseIpInput (.spec o4 o6) = some (o4, o6) := by
          simp [parseIpInput, hv]
        simp only [getPublicIP, hparse2] at hok
        have hout : out = ⟨jsTruthyStr o4, jsTruthyStr o6⟩ := by
          cases hok; rfl
        subst hout
        rcases hfam with h4 | h6
        · obtain ⟨s, hs⟩ := Option.isSome_iff_exists.mp h4
          subst hs
          have hsv : isIPv4 s = true := h12.1
          left
          simp [jsTruthyStr, isIPv4_ne_empty s hsv]
        · obtain ⟨s, hs⟩ := Option.isSome_iff_exists.mp h6
          subst hs
          have hsv : isIPv6 s = true := h12.2
          right
          simp [jsTruthyStr, isIPv6_ne_empty s hsv]
      · rw [if_neg hv] at hparse
        exact absurd hparse (by simp)

/-- Witness for `resolvedIP_not_both_false` at a concrete explicit spec. -/
theorem resolvedIP_not_both_false_witness :
    (⟨some "1.2.3.4", none⟩ : ResolvedIP).ipv4.isSome = true ∨
      (⟨some "1.2.3.4", none⟩ : ResolvedIP).ipv6.isSome = true :=
  resolvedIP_not_both_false (.spec (some "1.2.3.4") none) none netAllGarbage
    ⟨some "1.2.3.4", none⟩
    (Or.inr ⟨some "1.2.3.4", none, rfl, Or.inl rfl⟩) rfl

/-! ### C7: explicit specs pass through untouched, with no network call -/

/-- C7: on an explicit IP spec every present family is carried through
unchanged, every absent family becomes `false`, and the result is the same for
every network oracle and proxy — no request is issued (witnessed below by a
network whose every request fails). -/
theorem explicit_ip_passthrough (o4 o6 : Option String) (proxy : Option ProxyCfg)
    (net : String → NetResult)
    (hv4 : optValid isIPv4 o4 = true) (hv6 : optValid isIPv6 o6 = true) :
    getPublicIP (.spec o4 o6) proxy net = .ok ⟨o4, o6⟩ := by
  have hparse : parseIpInput (.spec o4 o6) = some (o4, o6) := by
    simp [parseIpInput, hv4, hv6]
  simp only [getPublicIP, hparse]
  have h4 : jsTruthyStr o4 = o4 := by
    cases o4 with
    | none => rfl
    | some s => simp [jsTruthyStr, isIPv4_ne_empty s hv4]
  have h6 : jsTruthyStr o6 = o6 := by
    cases o6 with
    | none => rfl
    | some s => simp [jsTruthyStr, isIPv6_ne_empty s hv6]
  rw [h4, h6]

/-- A network that fails every request outright. -/
def netAllFail : String → NetResult := fun _ => .fail "no network"

/-- Witness for `explicit_ip_passthrough`: the spec `{ipv4: "1.2.3.4"}` maps to
`{ipv4: "1.2.3.4", ipv6: false}` even against a network that fails every
request — no network call is made. -/
theorem explicit_ip_passthrough_witness :
    getPublicIP (.spec (some "1.2.3.4") none) none netAllFail =
      .ok ⟨some "1.2.3.4", none⟩ :=
  explicit_ip_passthrough (some "1.2.3.4") none none netAllFail (by decide) (by decide)

/-! ### The orchestrator: inversion and claims about the assembled descriptor -/

/-- Successful assembly decomposes into: validation passed, the executable
resolved, the engine-setting map accumulated, and the descriptor assembled
from them. -/
theorem camoufoxLaunchOptions_ok_elim (w : World) (raw : RawOptions)
    (d : LaunchDescriptor) (h : camoufoxLaunchOptions w raw = .ok d) :
    zodValidate raw = true ∧
    ∃ exe mc, launchPath w raw.executablePath = .ok exe ∧
      buildMainConfig w raw exe = .ok mc ∧ d = mkDescriptor w raw exe mc := by
  by_cases hz : zodValidate raw = true
  · refine ⟨hz, ?_⟩
    simp only [camoufoxLaunchOptions, hz, if_true] at h
    cases hlp : launchPath w raw.executablePath with
    | error e => rw [hlp] at h; exact absurd h (by simp)
    | ok exe =>
      rw [hlp] at h
      simp only at h
      cases hb : buildMainConfig w raw exe with
      | error e => rw [hb] at h; exact absurd h (by simp)
      | ok mc =>
        rw [hb] at h
        simp only at h
        exact ⟨exe, mc, rfl, hb, by cases h; rfl⟩
  · simp only [camoufoxLaunchOptions, hz, if_false] at h
    exact absurd h (by simp)

/-! ### C5: a proxy without geoip never validates -/

/-- C5: whenever `proxy` is present and `geoip` absent the schema rejects the
input (`geoip` is required in the proxy variant), and the orchestrator aborts
with the validation error — uniformly in the world, i.e. before any I/O. -/
theorem proxy_requires_geoip (raw : RawOptions) (w : World) (p : ProxyCfg)
    (hp : raw.proxy = some p) (hg : raw.geoip = none) :
    zodValidate raw = false ∧
    camoufoxLaunchOptions w raw = .error zodParseErrMsg := by
  have hz : zodValidate raw = false := by
    simp [zodValidate, hp, hg]
  exact ⟨hz, by simp [camoufoxLaunchOptions, hz]⟩

/-- A syntactically valid proxy configuration. -/
def proxyC5 : ProxyCfg :=
  { server := "http://proxy.example.com:3128", username := none, password := none,
    bypass := none }

/-- A raw input with a proxy but no geoip. -/
def rawC5 : RawOptions :=
  { headless := none, proxy := some proxyC5, geoip := none, humanize := none,
    enableCache := none, executablePath := none }

/-- A world in which everything exists and every request succeeds, so that
only validation can make `rawC5` fail. -/
def wOk : World :=
  { os := .linux
    homedir := "/home/u"
    fsStat := fun p =>
      if p = "/opt" then some ⟨false, true⟩
      else if p = "/opt/camoufox-bin" then some ⟨true, false⟩
      else if p = "/opt/GeoLite2-City.mmdb" then some ⟨true, false⟩
      else none
    net := fun _ => .resp true "9.9.9.9"
    lookupCity := fun ip =>
      if ip = "9.9.9.9" then some ⟨some ⟨some 1, some 2, some 3, some "UTC"⟩⟩ else none
    lookupCountry := fun ip => if ip = "9.9.9.9" then some ⟨some ⟨some "DE"⟩⟩ else none
    clmLocales := fun c => if c = "DE" then some ["de-DE"] else none
    processEnv := [("webrtc:ipv4", .s "FROM_OS")] }

/-- Witness for `proxy_requires_geoip` at a concrete input and world. -/
theorem proxy_requires_geoip_witness :
    zodValidate rawC5 = false ∧
    camoufoxLaunchOptions wOk rawC5 = .error zodParseErrMsg :=
  proxy_requires_geoip rawC5 wOk proxyC5 rfl rfl

/-! ### C8: the cache block -/

/-- C8: on a successful assembly the preference map of the descriptor is
exactly the five fixed cache-tuning keys when `enableCache` is truthy and
empty otherwise, and the cache block leaves the engine-setting map unchanged. -/
theorem cache_prefs_exactly_five (w : World) (raw : RawOptions)
    (d : LaunchDescriptor) (h : camoufoxLaunchOptions w raw = .ok d) :
    (enableCacheTruthy raw.enableCache = true → d.firefoxUserPrefs = fiveCachePrefs) ∧
    (enableCacheTruthy raw.enableCache = false → d.firefoxUserPrefs = []) ∧
    (∀ (b : Bool) (mc prefs : ConfigMap), (cacheStep b mc prefs).1 = mc) := by
  obtain ⟨hz, exe, mc, hlp, hb, hd⟩ := camoufoxLaunchOptions_ok_elim w raw d h
  subst hd
  refine ⟨?_, ?_, cacheStep_fst⟩
  · intro hc
    show (cacheStep (enableCacheTruthy raw.enableCache) mc []).2 = fiveCachePrefs
    rw [hc]
    rfl
  · intro hc
    show (cacheStep (enableCacheTruthy raw.enableCache) mc []).2 = []
    rw [hc]
    rfl

/-- A geoip-true raw input with cache enabled. -/
def rawC8 : RawOptions :=
  { headless := none, proxy := none, geoip := some (.gb true), humanize := none,
    enableCache := some true, executablePath := some "/opt/camoufox" }

/-- Witness for `cache_prefs_exactly_five` on a concrete successful run. -/
theorem cache_prefs_exactly_five_witness :
    ∃ d, camoufoxLaunchOptions wOk rawC8 = .ok d ∧ d.firefoxUserPrefs = fiveCachePrefs := by
  refine ⟨(camoufoxLaunchOptions wOk rawC8).toOption.get (by decide), ?_, ?_⟩
  · rfl
  · exact (cache_prefs_exactly_five wOk rawC8 _ rfl).1 rfl

/-! ### C1: the final environment merge -/

/-- The geoip-true raw input used to exhibit the environment merge. -/
def rawC1 : RawOptions :=
  { headless := none, proxy := none, geoip := some (.gb true), humanize := none,
    enableCache := none, executablePath := some "/opt/camoufox" }

/-- C1, as stated, is false: under `wOk` the engine-setting map binds
`webrtc:ipv4` to the detected `"9.9.9.9"`, the process environment binds the
same key to `"FROM_OS"`, and the returned env holds the process-environment
value, not the engine-setting one. -/
theorem env_merge_counterexample :
    (camoufoxLaunchOptions wOk rawC1).toOption.map
        (fun d => lookupCfg d.env "webrtc:ipv4") = some (some (.s "FROM_OS")) ∧
    (buildMainConfig wOk rawC1 "/opt/camoufox-bin").toOption.map
        (fun mc => lookupCfg mc "webrtc:ipv4") = some (some (.s "9.9.9.9")) ∧
    ¬ (JSVal.s "FROM_OS" = JSVal.s "9.9.9.9") := by
  refine ⟨rfl, rfl, by decide⟩

/-- C1 (amended): the returned env is the PROCESS ENVIRONMENT merged over the
engine-setting map — the spread `{...engineSettings, ...processEnv}` lets the
process environment win on every key collision. -/
theorem env_merge_process_env_wins (w : World) (raw : RawOptions)
    (d : LaunchDescriptor) (h : camoufoxLaunchOptions w raw = .ok d) :
    ∃ mc, buildMainConfig w raw d.executablePath = .ok mc ∧
      d.env = jsSpread mc w.processEnv ∧
      ∀ k, containsKey mc k = true → containsKey w.processEnv k = true →
        lookupCfg d.env k = lookupCfg w.processEnv k := by
  obtain ⟨hz, exe, mc, hlp, hb, hd⟩ := camoufoxLaunchOptions_ok_elim w raw d h
  have hexe : d.executablePath = exe := by rw [hd]; rfl
  have henv : d.env = jsSpread mc w.processEnv := by
    rw [hd]
    show jsSpread (cacheStep (enableCacheTruthy raw.enableCache) mc []).1 w.processEnv
      = jsSpread mc w.processEnv
    rw [cacheStep_fst]
  refine ⟨mc, by rw [hexe]; exact hb, henv, ?_⟩
  intro k hk1 hk2
  rw [henv]
  exact lookupCfg_jsSpread_right mc w.processEnv k hk1 hk2

/-- Witness for `env_merge_process_env_wins` on the concrete run of
`env_merge_counterexample`. -/
theorem env_merge_process_env_wins_witness :
    ∃ mc, buildMainConfig wOk rawC1
        ((camoufoxLaunchOptions wOk rawC1).toOption.get (by decide)).executablePath
        = .ok mc ∧
      ((camoufoxLaunchOptions wOk rawC1).toOption.get (by decide)).env
        = jsSpread mc wOk.processEnv ∧
      ∀ k, containsKey mc k = true → containsKey wOk.processEnv k = true →
        lookupCfg ((camoufoxLaunchOptions wOk rawC1).toOption.get (by decide)).env k
          = lookupCfg wOk.processEnv k :=
  env_merge_process_env_wins wOk rawC1 _ rfl

/-! ### C3: the error taxonomy of the geo-locale resolver -/

/-- A world whose file system is empty: every `fs.stat` rejects. -/
def wNoFs : World :=
  { wOk with fsStat := fun _ => none }

/-- C3, as stated, is false: when the database file does not exist, the
resolver fails with the propagated `fs.stat` ENOENT error, not with the
`'.mmdb' file not found` error — that message is only reachable when the stat
succeeds but the path is not a regular file. -/
theorem geo_db_missing_counterexample :
    getGeolocationAndLocale wNoFs ⟨some "1.2.3.4", none⟩ "/opt/camoufox-bin"
      = .error (enoentMsg "/opt/GeoLite2-City.mmdb") ∧
    ¬ (enoentMsg "/opt/GeoLite2-City.mmdb"
        = "Geolocation and Locale error, '.mmdb' file not found") := by
  exact ⟨rfl, by decide⟩

/-- C3 (amended): the resolver fails with the propagated ENOENT stat error
when the database file does not exist, with the `'.mmdb' file not found` error
when the path exists but is not a regular file, with the `No geoData found`
error when the city-level or the country-level lookup yields nothing, and with
the `Unknown iso country code` error when the country record's ISO code has no
locale-mapping entry; the custom messages are mutually distinct. -/
theorem geo_error_taxonomy (w : World) (ip : ResolvedIP) (dir pubIP : String)
    (hpick : pickPubIP ip = .ok pubIP) :
    (w.fsStat (mmdbPath dir) = none →
      getGeolocationAndLocale w ip dir = .error (enoentMsg (mmdbPath dir))) ∧
    (∀ st, w.fsStat (mmdbPath dir) = some st → st.isFile = false →
      getGeolocationAndLocale w ip dir
        = .error "Geolocation and Locale error, '.mmdb' file not found") ∧
    (∀ st, w.fsStat (mmdbPath dir) = some st → st.isFile = true →
      (w.lookupCity pubIP = none ∨ w.lookupCountry pubIP = none) →
      getGeolocationAndLocale w ip dir
        = .error ("Geolocation and Locale error, No geoData found for current IP: " ++ pubIP)) ∧
    (∀ st city ctry loc c, w.fsStat (mmdbPath dir) = some st → st.isFile = true →
      w.lookupCity pubIP = some city → w.lookupCountry pubIP = some ctry →
      city.location = some loc → ctry.country = some c →
      (match c.iso_code with
       | some code => w.clmLocales code
       | none => none) = none →
      getGeolocationAndLocale w ip dir
        = .error "Geolocation and Locale error, Unknown iso country code") ∧
    ¬ ("Geolocation and Locale error, '.mmdb' file not found"
        = "Geolocation and Locale error, No geoData found for current IP: " ++ pubIP) ∧
    ¬ ("Geolocation and Locale error, '.mmdb' file not found"
        = "Geolocation and Locale error, Unknown iso country code") ∧
    ¬ ("Geolocation and Locale error, No geoData found for current IP: " ++ pubIP
        = "Geolocation and Locale error, Unknown iso country code") := by
  refine ⟨?_, ?_, ?_, ?_, ?_, by decide, ?_⟩
  · intro hst
    simp [getGeolocationAndLocale, hpick, hst]
  · intro st hst hfile
    simp [getGeolocationAndLocale, hpick, hst, hfile]
  · intro st hst hfile hlk
    rcases hlk with hc | hc
    · cases hc2 : w.lookupCountry pubIP with
      | none => simp [getGeolocationAndLocale, hpick, hst, hfile, hc, hc2]
      | some ctry => simp [getGeolocationAndLocale, hpick, hst, hfile, hc, hc2]
    · cases hc2 : w.lookupCity pubIP with
      | none => simp [getGeolocationAndLocale, hpick, hst, hfile, hc, hc2]
      | some city => simp [getGeolocationAndLocale, hpick, hst, hfile, hc, hc2]
  · intro st city ctry loc c hst hfile hcity hctry hloc hcountry hclm
    simp [getGeolocationAndLocale, hpick, hst, hfile, hcity, hctry, hloc, hcountry, hclm]
  · intro h
    have h2 := congrArg String.data h
    rw [String.data_append] at h2
    have h3 := congrArg (List.take 31) h2.symm
    rw [List.take_append_of_le_length (by decide)] at h3
    exact absurd h3 (by decide)
  · intro h
    have h2 := congrArg String.data h
    rw [String.data_append] at h2
    have h3 := congrArg (List.take 31) h2
    rw [List.take_append_of_le_length (by decide)] at h3
    exact absurd h3 (by decide)

/-- Witness for `geo_error_taxonomy` at a concrete IP, world and directory. -/
theorem geo_error_taxonomy_witness :
    getGeolocationAndLocale wNoFs ⟨some "9.9.9.9", none⟩ "/opt/camoufox-bin"
      = .error (enoentMsg (mmdbPath "/opt/camoufox-bin")) :=
  (geo_error_taxonomy wNoFs ⟨some "9.9.9.9", none⟩ "/opt/camoufox-bin" "9.9.9.9" rfl).1 rfl

/-! ### C9: the final path component is discarded by both resolvers -/

/-- C9: for a non-empty caller-supplied directory `D`, `launchPath` succeeds
exactly when `dirname D` stats as a directory and the platform executable
resolved inside `dirname D` stats as a regular file, and then the returned
path is exactly that resolved executable path; the geo-locale resolver applies
the same rule, consulting the database at
`resolve(dirname(resolvedExecutablePath), "GeoLite2-City.mmdb")`. -/
theorem launchPath_discards_last_component (w : World) (D p : String)
    (hD : ¬ D = "") :
    (launchPath w (some D) = .ok p ↔
      (p = joinPath (dirnameOf D) (camoufoxExecutable w.os) ∧
        (∃ st, w.fsStat (dirnameOf D) = some st ∧ st.isDirectory = true) ∧
        (∃ st, w.fsStat (joinPath (dirnameOf D) (camoufoxExecutable w.os)) = some st ∧
          st.isFile = true))) ∧
    (∀ dir, mmdbPath dir = joinPath (dirnameOf dir) mmdbName) ∧
    (∀ ip pubIP dir, pickPubIP ip = .ok pubIP →
      w.fsStat (joinPath (dirnameOf dir) mmdbName) = none →
      getGeolocationAndLocale w ip dir
        = .error (enoentMsg (joinPath (dirnameOf dir) mmdbName))) := by
  refine ⟨?_, fun dir => rfl, ?_⟩
  · have htarget : (match some D with
        | some s => if s = "" then getDefaultInstallDirectory w else s
        | none => getDefaultInstallDirectory w) = D := by
      simp [hD]
    constructor
    · intro h
      unfold launchPath at h
      rw [htarget] at h
      unfold checkIfCamoufoxIsInstalled at h
      dsimp only at h
      cases hst : w.fsStat (dirnameOf D) with
      | none => rw [hst] at h; exact absurd h (by simp)
      | some st =>
        rw [hst] at h
        simp only at h
        cases hdir : st.isDirectory with
        | false => rw [hdir] at h; exact absurd h (by simp [Bool.false_eq_true])
        | true =>
          rw [hdir] at h
          simp only [if_true] at h
          unfold validatedExecutablePath at h
          dsimp only at h
          cases hst2 : w.fsStat (joinPath (dirnameOf D) (camoufoxExecutable w.os)) with
          | none => rw [hst2] at h; exact absurd h (by simp)
          | some st2 =>
            rw [hst2] at h
            simp only at h
            cases hfile : st2.isFile with
            | false => rw [hfile] at h; exact absurd h (by simp [Bool.false_eq_true])
            | true =>
              rw [hfile] at h
              simp only [if_true] at h
              have hp : p = joinPath (dirnameOf D) (camoufoxExecutable w.os) := by
                cases h; rfl
              exact ⟨hp, ⟨st, rfl, hdir⟩, ⟨st2, rfl, hfile⟩⟩
    · rintro ⟨hp, ⟨st, hst, hdir⟩, ⟨st2, hst2, hfile⟩⟩
      subst hp
      unfold launchPath
      rw [htarget]
      unfold checkIfCamoufoxIsInstalled
      dsimp only
      rw [hst]
      simp only [hdir, if_true]
      unfold validatedExecutablePath
      dsimp only
      rw [hst2]
      simp [hfile]
  · intro ip pubIP dir hpick hst
    simp [getGeolocationAndLocale, hpick, mmdbPath, hst]

/-- Witness for `launchPath_discards_last_component` on a concrete world. -/
theorem launchPath_discards_last_component_witness :
    launchPath wOk (some "/opt/camoufox") = .ok "/opt/camoufox-bin" :=
  ((launchPath_discards_last_component wOk "/opt/camoufox" "/opt/camoufox-bin"
      (by decide)).1).mpr
    ⟨rfl, ⟨⟨false, true⟩, rfl, rfl⟩, ⟨⟨true, false⟩, rfl, rfl⟩⟩

/-! ### C10: the bypass list is split without trimming -/

theorem labelValid_chars (p : List Char) (h : labelValid p = true) :
    ∀ c ∈ p, (isAlnumCh c || c = '-') = true := by
  match p with
  | [] => simp [labelValid] at h
  | [c] =>
    intro x hx
    simp only [List.mem_singleton] at hx
    subst hx
    simp only [labelValid] at h
    simp [h]
  | c :: d :: rest =>
    have hne : d :: rest ≠ [] := by simp
    simp only [labelValid] at h
    rw [Bool.and_eq_true, Bool.and_eq_true] at h
    obtain ⟨⟨h1, h2⟩, h3⟩ := h
    have hlast : isAlnumCh ((d :: rest).getLast hne) = true := by
      rw [List.getLast?_eq_getLast (d :: rest) hne] at h3
      exact h3
    intro x hx
    rcases List.mem_cons.mp hx with hx | hx
    · subst hx; simp [h1]
    · have hsplit : (d :: rest).dropLast ++ [(d :: rest).getLast hne] = d :: rest :=
        List.dropLast_append_getLast hne
      rw [← hsplit] at hx
      rcases List.mem_append.mp hx with hx | hx
      · exact List.all_eq_true.mp h2 x hx
      · simp only [List.mem_singleton] at hx
        subst hx
        simp [hlast]

theorem domainCheck_space_false (seg : List Char) (h : ' ' ∈ seg) :
    domainCheck seg = false := by
  cases h2 : domainCheck seg with
  | false => rfl
  | true =>
    exfalso
    obtain ⟨p, hp, hsp⟩ :=
      mem_piece_of_mem_splitOnChar '.' ' ' (by decide) seg h
    unfold domainCheck at h2
    rw [Bool.and_eq_true, Bool.and_eq_true] at h2
    obtain ⟨⟨hlen, hall⟩, hlast⟩ := h2
    have hne : splitOnChar '.' seg ≠ [] := splitOnChar_ne_nil '.' seg
    have htld : tldValid ((splitOnChar '.' seg).getLast hne) = true := by
      rw [List.getLast?_eq_getLast _ hne] at hlast
      exact hlast
    have hsplit : (splitOnChar '.' seg).dropLast ++
        [(splitOnChar '.' seg).getLast hne] = splitOnChar '.' seg :=
      List.dropLast_append_getLast hne
    rw [← hsplit] at hp
    rcases List.mem_append.mp hp with hmem | hmem
    · have hlab : labelValid p = true := List.all_eq_true.mp hall p hmem
      have := labelValid_chars p hlab ' ' hsp
      exact absurd this (by decide)
    · simp only [List.mem_singleton] at hmem
      subst hmem
      simp only [tldValid, decide_eq_true_eq] at htld
      have := List.all_eq_true.mp htld.2 ' ' hsp
      exact absurd this (by decide)

/-- C10: the bypass refinement splits on `','` without trimming, so any bypass
string with a space adjacent to a comma fails the proxy validation although
all its trimmed segments may be valid domains — as the concrete conjuncts show
for `"a.com, b.com"` (rejected, though its trimmed segments pass and the
space-free `"a.com,b.com"` is accepted). -/
theorem bypass_split_without_trim :
    (∀ s : String,
      ((∃ pre post, s.data = pre ++ ',' :: ' ' :: post) ∨
       (∃ pre post, s.data = pre ++ ' ' :: ',' :: post)) →
      bypassCheck s = false) ∧
    (∀ (p : ProxyCfg) (s : String), p.bypass = some s → bypassCheck s = false →
      proxyValid p = false) ∧
    bypassCheck "a.com, b.com" = false ∧
    bypassCheck "a.com,b.com" = true ∧
    (splitOnChar ',' ("a.com, b.com").data).all
      (fun seg => domainCheck (jsTrim (String.mk seg)).data) = true := by
  refine ⟨?_, ?_, by decide, by decide, by decide⟩
  · intro s hs
    have hsp : ' ' ∈ s.data := by
      rcases hs with ⟨pre, post, he⟩ | ⟨pre, post, he⟩ <;>
        · rw [he]; simp
    obtain ⟨seg, hseg, hmem⟩ :=
      mem_piece_of_mem_splitOnChar ',' ' ' (by decide) s.data hsp
    cases hb : bypassCheck s with
    | false => rfl
    | true =>
      exfalso
      unfold bypassCheck at hb
      have := List.all_eq_true.mp hb seg hseg
      rw [domainCheck_space_false seg hmem] at this
      exact absurd this (by simp)
  · intro p s hps hbc
    unfold proxyValid
    rw [hps]
    simp [hbc]

/-- Witness for `bypass_split_without_trim` at the concrete string
`"a.com, b.com"`, which contains a space right after a comma. -/
theorem bypass_split_without_trim_witness :
    bypassCheck "a.com, b.com" = false :=
  bypass_split_without_trim.1 "a.com, b.com"
    (Or.inl ⟨"a.com".data, " b.com".data.drop 1, by decide⟩)
